import Mathlib

/-!
Shallow embedding of the CVM financial-statement pipeline
(`src/cvm/collector.py`, `src/cvm/processor.py`).

Modelling conventions:
* A pandas long-format row of the DFP files is a `Row`; a DataFrame is a
  `List Row` (order = file/row order).
* Float cell values are modelled by `FVal`: an extended rational with the
  IEEE special values NaN and signed infinity.  The source data are finite
  decimals and the pipeline only adds, subtracts, divides and scales by
  100, so exact rational arithmetic is a faithful model of the float
  operations for the properties at stake (NaN/∞ propagation, division by
  zero, exact small quotients); rounding and negative zero are not
  modelled.
* `DataFrame.pivot(index, columns, values)` raises `ValueError` when the
  (index, columns) key is duplicated, otherwise produces one row per
  distinct index key, sorted ascending, one column per distinct column
  label, sorted ascending, with NaN in cells that have no source row.
  `pivotBy` below models this, with `Except` for the raised error.
* Indexing a missing column (`x['Estoques']` when the pivot produced no
  such column) raises `KeyError`; `.assign` steps therefore run behind a
  `requireCols` check that models Python's left-to-right evaluation of
  the assign lambdas.
-/

/-- IEEE-style float value: NaN, signed infinity, or a finite rational. -/
inductive FVal : Type where
  | nan : FVal
  | inf : Bool → FVal
  | num : ℚ → FVal
  deriving DecidableEq

instance {e a : Type} [DecidableEq e] [DecidableEq a] :
    DecidableEq (Except e a) := fun x y =>
  match x, y with
  | .error u, .error v =>
    if h : u = v then isTrue (by rw [h])
    else isFalse (fun hh => by cases hh; exact h rfl)
  | .ok u, .ok v =>
    if h : u = v then isTrue (by rw [h])
    else isFalse (fun hh => by cases hh; exact h rfl)
  | .error _, .ok _ => isFalse (fun hh => by cases hh)
  | .ok _, .error _ => isFalse (fun hh => by cases hh)

/-- Float negation. -/
def fneg : FVal → FVal
  | .nan => .nan
  | .inf s => .inf (!s)
  | .num q => .num (-q)

/-- Float addition (IEEE semantics; `inf true` is `-∞`). -/
def fadd : FVal → FVal → FVal
  | .nan, _ => .nan
  | _, .nan => .nan
  | .inf s, .inf t => if s = t then .inf s else .nan
  | .inf s, .num _ => .inf s
  | .num _, .inf t => .inf t
  | .num a, .num b => .num (a + b)

/-- Float subtraction, as Python's binary `-` on float columns. -/
def fsub (a b : FVal) : FVal := fadd a (fneg b)

/-- Float division, as numpy/pandas elementwise `/`: `x/0 = ±∞` for
`x ≠ 0`, `0/0 = NaN`, NaN propagates (negative zero not modelled). -/
def fdiv : FVal → FVal → FVal
  | .nan, _ => .nan
  | _, .nan => .nan
  | .inf _, .inf _ => .nan
  | .inf s, .num b => .inf (xor s (decide (b < 0)))
  | .num _, .inf _ => .num 0
  | .num a, .num b =>
      if b = 0 then (if a = 0 then .nan else .inf (decide (a < 0)))
      else .num (a / b)

/-- Scaling by 100, as the trailing `* 100` of the percent ratios. -/
def fmul100 : FVal → FVal
  | .nan => .nan
  | .inf s => .inf s
  | .num q => .num (q * 100)

/-- One long-format DFP row (the columns the pipeline reads). -/
structure Row : Type where
  DT_REFER : String
  DENOM_CIA : String
  CD_CONTA : String
  DS_CONTA : String
  VL_CONTA : FVal
  ORDEM_EXERC : String
  deriving DecidableEq

/-- The pivot index key `(DT_REFER, DENOM_CIA)`. -/
def rowKey (r : Row) : String × String := (r.DT_REFER, r.DENOM_CIA)

/-! ### A computable lexicographic string order

Python (and hence pandas sorting of object columns) compares strings
lexicographically by Unicode code point.  `strLEb` is that order on the
character lists, stated over `Char.toNat` so that every comparison is
structural Nat arithmetic. -/

/-- Lexicographic code-point comparison of character lists. -/
def strLEb : List Char → List Char → Bool
  | [], _ => true
  | _ :: _, [] => false
  | a :: as, b :: bs =>
    if a.toNat < b.toNat then true
    else if b.toNat < a.toNat then false
    else strLEb as bs

theorem strLEb_refl : ∀ l : List Char, strLEb l l = true
  | [] => rfl
  | a :: as => by
    simp only [strLEb, lt_irrefl, if_false, if_neg (lt_irrefl a.toNat)]
    exact strLEb_refl as

theorem strLEb_total : ∀ l m : List Char,
    strLEb l m = true ∨ strLEb m l = true
  | [], _ => Or.inl rfl
  | _ :: _, [] => Or.inr rfl
  | a :: as, b :: bs => by
    rcases Nat.lt_trichotomy a.toNat b.toNat with h | h | h
    · exact Or.inl (by simp [strLEb, h])
    · have hba : ¬ b.toNat < a.toNat := by omega
      have hab : ¬ a.toNat < b.toNat := by omega
      rcases strLEb_total as bs with h' | h'
      · exact Or.inl (by simp [strLEb, hab, hba, h'])
      · exact Or.inr (by simp [strLEb, hab, hba, h'])
    · exact Or.inr (by simp [strLEb, h])

theorem char_toNat_inj {a b : Char} (h : a.toNat = b.toNat) : a = b :=
  Char.ext (UInt32.ext h)

theorem strLEb_antisymm : ∀ l m : List Char,
    strLEb l m = true → strLEb m l = true → l = m
  | [], [] => fun _ _ => rfl
  | [], _ :: _ => fun _ h => by simp [strLEb] at h
  | _ :: _, [] => fun h _ => by simp [strLEb] at h
  | a :: as, b :: bs => fun h1 h2 => by
    rcases Nat.lt_trichotomy a.toNat b.toNat with h | h | h
    · have : ¬ b.toNat < a.toNat := by omega
      simp [strLEb, h, this] at h2
    · have hab : ¬ a.toNat < b.toNat := by omega
      have hba : ¬ b.toNat < a.toNat := by omega
      simp only [strLEb, if_neg hab, if_neg hba] at h1 h2
      rw [char_toNat_inj h, strLEb_antisymm as bs h1 h2]
    · have : ¬ a.toNat < b.toNat := by omega
      simp [strLEb, h, this] at h1

theorem strLEb_trans : ∀ l m n : List Char,
    strLEb l m = true → strLEb m n = true → strLEb l n = true
  | [], _, _ => fun _ _ => rfl
  | _ :: _, [], _ => fun h _ => by simp [strLEb] at h
  | _ :: _, _ :: _, [] => fun _ h => by simp [strLEb] at h
  | a :: as, b :: bs, c :: cs => fun h1 h2 => by
    by_cases hab : a.toNat < b.toNat <;> by_cases hbc : b.toNat < c.toNat
    · have hac : a.toNat < c.toNat := lt_trans hab hbc
      simp [strLEb, hac]
    · by_cases hcb : c.toNat < b.toNat
      · simp [strLEb, hbc, hcb] at h2
      · have hac : a.toNat < c.toNat := by omega
        simp [strLEb, hac]
    · by_cases hba : b.toNat < a.toNat
      · simp [strLEb, hab, hba] at h1
      · have hac : a.toNat < c.toNat := by omega
        simp [strLEb, hac]
    · by_cases hba : b.toNat < a.toNat
      · simp [strLEb, hab, hba] at h1
      · by_cases hcb : c.toNat < b.toNat
        · simp [strLEb, hbc, hcb] at h2
        · have hac : ¬ a.toNat < c.toNat := by omega
          have hca : ¬ c.toNat < a.toNat := by omega
          simp only [strLEb, if_neg hab, if_neg hba] at h1
          simp only [strLEb, if_neg hbc, if_neg hcb] at h2
          simp only [strLEb, if_neg hac, if_neg hca]
          exact strLEb_trans as bs cs h1 h2

/-- Code-point lexicographic `≤` on strings (Python's string order). -/
def strLE (a b : String) : Prop := strLEb a.data b.data = true

instance : DecidableRel strLE := fun a b =>
  instDecidableEqBool (strLEb a.data b.data) true

theorem strLE_refl (a : String) : strLE a a := strLEb_refl a.data

theorem strLE_trans {a b c : String} (h1 : strLE a b) (h2 : strLE b c) :
    strLE a c := strLEb_trans a.data b.data c.data h1 h2

theorem strLE_antisymm {a b : String} (h1 : strLE a b) (h2 : strLE b a) :
    a = b := by
  have h := strLEb_antisymm a.data b.data h1 h2
  cases a; cases b
  exact congrArg String.mk h

theorem strLE_total (a b : String) : strLE a b ∨ strLE b a :=
  strLEb_total a.data b.data

/-- Code-point lexicographic `<` on strings. -/
def strLT (a b : String) : Prop := strLE a b ∧ a ≠ b

/-- Ascending lexicographic order on pivot keys (pandas sorts the
multi-index `(DT_REFER, DENOM_CIA)` lexicographically). -/
def keyLE (a b : String × String) : Prop :=
  strLT a.1 b.1 ∨ (a.1 = b.1 ∧ strLE a.2 b.2)

instance : DecidableRel keyLE := fun a b => by
  unfold keyLE strLT; infer_instance

theorem strLT_trans {a b c : String} (h1 : strLT a b) (h2 : strLT b c) :
    strLT a c := by
  refine ⟨strLE_trans h1.1 h2.1, fun hac => ?_⟩
  exact h2.2 (strLE_antisymm h2.1 (hac ▸ h1.1))

instance : IsTrans (String × String) keyLE where
  trans a b c hab hbc := by
    rcases hab with h1 | ⟨h1, h1'⟩ <;> rcases hbc with h2 | ⟨h2, h2'⟩
    · exact Or.inl (strLT_trans h1 h2)
    · exact Or.inl (h2 ▸ h1)
    · exact Or.inl (h1 ▸ h2)
    · exact Or.inr ⟨h1.trans h2, strLE_trans h1' h2'⟩

instance : IsAntisymm (String × String) keyLE where
  antisymm a b hab hba := by
    rcases hab with h1 | ⟨h1, h1'⟩ <;> rcases hba with h2 | ⟨h2, h2'⟩
    · exact absurd (strLE_antisymm h1.1 h2.1) h1.2
    · exact absurd h2.symm h1.2
    · exact absurd h1.symm h2.2
    · exact Prod.ext h1 (strLE_antisymm h1' h2')

instance : IsTotal (String × String) keyLE where
  total a b := by
    by_cases h : a.1 = b.1
    · rcases strLE_total a.2 b.2 with h' | h'
      · exact Or.inl (Or.inr ⟨h, h'⟩)
      · exact Or.inr (Or.inr ⟨h.symm, h'⟩)
    · rcases strLE_total a.1 b.1 with h' | h'
      · exact Or.inl (Or.inl ⟨h', h⟩)
      · exact Or.inr (Or.inl ⟨h', fun hh => h hh.symm⟩)

/-- One row of a pivoted (wide) table: the flattened index key plus one
cell per column label of the table. -/
structure WideRow : Type where
  key : String × String
  cells : List (String × FVal)
  deriving DecidableEq

/-- A pivoted (wide) table: the column labels, and the rows in index
order. -/
structure WideTable : Type where
  cols : List String
  rows : List WideRow
  deriving DecidableEq

/-- The value of the pivoted cell at index key `k`, column `c`: the
`VL_CONTA` of the unique source row with that full key, NaN when there is
none (the duplicate case is unreachable behind the pivot's check). -/
def cellVal (colOf : Row → String) (df : List Row) (k : String × String)
    (c : String) : FVal :=
  match df.filter (fun r => decide (rowKey r = k ∧ colOf r = c)) with
  | [r] => r.VL_CONTA
  | _ => .nan

/-- The sorted distinct index keys of the pivot. -/
def pivotKeys (df : List Row) : List (String × String) :=
  List.insertionSort keyLE ((df.map rowKey).dedup)

instance : IsTrans String strLE where
  trans _ _ _ hab hbc := strLE_trans hab hbc

instance : IsAntisymm String strLE where
  antisymm _ _ hab hba := strLE_antisymm hab hba

instance : IsTotal String strLE where
  total a b := strLE_total a b

/-- The sorted distinct column labels of the pivot. -/
def pivotCols (colOf : Row → String) (df : List Row) : List String :=
  List.insertionSort strLE ((df.map colOf).dedup)

/-- The successful pivot result. -/
def mkWide (colOf : Row → String) (df : List Row) : WideTable :=
  { cols := pivotCols colOf df
    rows := (pivotKeys df).map fun k =>
      { key := k
        cells := (pivotCols colOf df).map fun c => (c, cellVal colOf df k c) } }

/-- `df.pivot(index=['DT_REFER','DENOM_CIA'], columns=colOf, values='VL_CONTA')`
followed by `reset_index`: fails iff the (index, columns) key is
duplicated. -/
def pivotBy (colOf : Row → String) (df : List Row) : Except String WideTable :=
  if (df.map fun r => (rowKey r, colOf r)).Nodup then
    .ok (mkWide colOf df)
  else
    .error "ValueError: Index contains duplicate entries, cannot reshape"

/-- `x[c]` on a wide row whose table has column set `cols`: `KeyError`
when the column is absent from the table. -/
def requireCols (req : List String) (t : WideTable) : Except String Unit :=
  match req.find? (fun c => !(t.cols.contains c)) with
  | some c => .error ("KeyError: " ++ c)
  | none => .ok ()

/-! ## `FinancialProcessor` (statement reshapers) -/

/-- The balance-sheet account-description allow-list of
`process_balance_sheet`. -/
def bsAccounts : List String :=
  ["Ativo Total", "Passivo Total", "Patrimônio Líquido Consolidado",
   "Ativo Circulante", "Ativo Não Circulante", "Passivo Circulante",
   "Passivo Não Circulante"]

/-- The filter step of `process_balance_sheet`: description allow-list,
company universe, and final (`ORDEM_EXERC == 'ÚLTIMO'`) records. -/
def filteredBS (bp : List Row) (companies : List String) : List Row :=
  bp.filter fun r =>
    decide (r.DS_CONTA ∈ bsAccounts ∧ r.DENOM_CIA ∈ companies ∧
      r.ORDEM_EXERC = "ÚLTIMO")

/-- One row of the processed balance sheet: the flattened key, the
pivot's cells, and the derived `passivo` column. -/
structure BSRow : Type where
  DT_REFER : String
  DENOM_CIA : String
  cells : List (String × FVal)
  passivo : FVal
  deriving DecidableEq

/-- `FinancialProcessor.process_balance_sheet`: concatenate the BPA and
BPP frames, filter, pivot by `DS_CONTA`, assign
`passivo = x['Passivo Total'] - x['Patrimônio Líquido Consolidado']`
(a `KeyError` when either column is absent), and flatten the index. -/
def process_balance_sheet (bpa bpp : List Row) (companies : List String) :
    Except String (List BSRow) :=
  match pivotBy (fun r => r.DS_CONTA) (filteredBS (bpa ++ bpp) companies) with
  | .error e => .error e
  | .ok t =>
    match requireCols ["Passivo Total", "Patrimônio Líquido Consolidado"] t with
    | .error e => .error e
    | .ok _ => .ok (t.rows.map fun w =>
        { DT_REFER := w.key.1
          DENOM_CIA := w.key.2
          cells := w.cells
          passivo := fsub ((w.cells.lookup "Passivo Total").getD .nan)
            ((w.cells.lookup "Patrimônio Líquido Consolidado").getD .nan) })

/-- The income-statement account-description allow-list of
`process_income_statement`. -/
def dreAccounts : List String :=
  ["Receita de Venda de Bens e/ou Serviços",
   "Custo dos Bens e/ou Serviços Vendidos",
   "Lucro/Prejuízo Consolidado do Período"]

/-- The filter step of `process_income_statement`. -/
def filteredDRE (dre : List Row) (companies : List String) : List Row :=
  dre.filter fun r =>
    decide (r.DS_CONTA ∈ dreAccounts ∧ r.DENOM_CIA ∈ companies ∧
      r.CD_CONTA ∈ ["3.11", "3.01", "3.02"] ∧ r.ORDEM_EXERC = "ÚLTIMO")

/-- `FinancialProcessor.process_income_statement`: filter and pivot by
`DS_CONTA` (no assign step). -/
def process_income_statement (dre : List Row) (companies : List String) :
    Except String WideTable :=
  pivotBy (fun r => r.DS_CONTA) (filteredDRE dre companies)

/-! ## `FinancialIndicators` -/

/-- `FinancialIndicators.load_data`: concatenate the two frames and keep
the rows of universe companies. -/
def load_data (bp dre : List Row) (companies : List String) : List Row :=
  (bp ++ dre).filter fun r => decide (r.DENOM_CIA ∈ companies)

/-- The account-code allow-list of `calculate_liquidity`. -/
def liqAccounts : List String :=
  ["1.01.01", "2.01", "1.01", "1.01.04", "1.01.07", "1.02", "2.02"]

/-- The filter step of `calculate_liquidity`. -/
def liqFiltered (dfp : List Row) : List Row :=
  dfp.filter fun r =>
    decide (r.CD_CONTA ∈ liqAccounts ∧ r.ORDEM_EXERC = "ÚLTIMO")

/-- The columns the liquidity assign lambdas index, in Python evaluation
order. -/
def liqRequired : List String :=
  ["Caixa e Equivalentes de Caixa", "Passivo Circulante",
   "Ativo Circulante", "Estoques", "Despesas Antecipadas",
   "Ativo Não Circulante", "Passivo Não Circulante"]

/-- One row of the liquidity table (final column projection). -/
structure LiqRow : Type where
  DT_REFER : String
  DENOM_CIA : String
  liquidez_imediata : FVal
  liquidez_seca : FVal
  liquidez_corrente : FVal
  liquidez_geral : FVal
  deriving DecidableEq

/-- `FinancialIndicators.calculate_liquidity`: filter by account code and
finality, pivot by `DS_CONTA`, assign the four liquidity columns
(`KeyError` when an indexed column is absent), and project. -/
def calculate_liquidity (dfp : List Row) : Except String (List LiqRow) :=
  match pivotBy (fun r => r.DS_CONTA) (liqFiltered dfp) with
  | .error e => .error e
  | .ok t =>
    match requireCols liqRequired t with
    | .error e => .error e
    | .ok _ => .ok (t.rows.map fun w =>
        let v := fun c => cellVal (fun r => r.DS_CONTA) (liqFiltered dfp) w.key c
        { DT_REFER := w.key.1
          DENOM_CIA := w.key.2
          liquidez_imediata :=
            fdiv (v "Caixa e Equivalentes de Caixa") (v "Passivo Circulante")
          liquidez_seca :=
            fdiv (fsub (fsub (v "Ativo Circulante") (v "Estoques"))
              (v "Despesas Antecipadas")) (v "Passivo Circulante")
          liquidez_corrente :=
            fdiv (v "Ativo Circulante") (v "Passivo Circulante")
          liquidez_geral :=
            fdiv (fadd (v "Ativo Circulante") (v "Ativo Não Circulante"))
              (fadd (v "Passivo Circulante") (v "Passivo Não Circulante")) })

/-- The account-code allow-list of `calculate_debt`. -/
def debtAccounts : List String :=
  ["1", "2.01", "2.02", "2.01.04", "2.02.01", "2.03", "3.05"]

/-- The filter step of `calculate_debt`. -/
def debtFiltered (dfp : List Row) : List Row :=
  dfp.filter fun r =>
    decide (r.CD_CONTA ∈ debtAccounts ∧ r.ORDEM_EXERC = "ÚLTIMO")

/-- The columns the debt assign lambdas index, in Python evaluation
order. -/
def debtRequired : List String :=
  ["2.01.04", "2.02.01", "2.03", "1", "3.05", "2.01", "2.02"]

/-- One row of the debt/leverage table. -/
structure DebtRow : Type where
  DT_REFER : String
  DENOM_CIA : String
  divida_pl : FVal
  divida_ativos : FVal
  divida_ebit : FVal
  pl_ativos : FVal
  passivos_ativos : FVal
  deriving DecidableEq

/-- `FinancialIndicators.calculate_debt`: filter, pivot by `CD_CONTA`,
assign the five leverage columns, and project. -/
def calculate_debt (dfp : List Row) : Except String (List DebtRow) :=
  match pivotBy (fun r => r.CD_CONTA) (debtFiltered dfp) with
  | .error e => .error e
  | .ok t =>
    match requireCols debtRequired t with
    | .error e => .error e
    | .ok _ => .ok (t.rows.map fun w =>
        let v := fun c => cellVal (fun r => r.CD_CONTA) (debtFiltered dfp) w.key c
        { DT_REFER := w.key.1
          DENOM_CIA := w.key.2
          divida_pl := fdiv (fadd (v "2.01.04") (v "2.02.01")) (v "2.03")
          divida_ativos := fdiv (fadd (v "2.01.04") (v "2.02.01")) (v "1")
          divida_ebit := fdiv (fadd (v "2.01.04") (v "2.02.01")) (v "3.05")
          pl_ativos := fdiv (v "2.03") (v "1")
          passivos_ativos := fdiv (fadd (v "2.01") (v "2.02")) (v "1") })

/-- The account-code allow-list of `calculate_efficiency`. -/
def effAccounts : List String := ["3.01", "3.03", "3.05", "3.11"]

/-- The filter step of `calculate_efficiency`. -/
def effFiltered (dfp : List Row) : List Row :=
  dfp.filter fun r =>
    decide (r.CD_CONTA ∈ effAccounts ∧ r.ORDEM_EXERC = "ÚLTIMO")

/-- The columns the margin assign lambdas index, in Python evaluation
order. -/
def effRequired : List String := ["3.03", "3.01", "3.11", "3.05"]

/-- One row of the efficiency/margin table. -/
structure EffRow : Type where
  DT_REFER : String
  DENOM_CIA : String
  margem_bruta : FVal
  margem_liquida : FVal
  margem_ebit : FVal
  deriving DecidableEq

/-- `FinancialIndicators.calculate_efficiency`: filter, pivot by
`CD_CONTA`, assign the three margin columns, and project. -/
def calculate_efficiency (dfp : List Row) : Except String (List EffRow) :=
  match pivotBy (fun r => r.CD_CONTA) (effFiltered dfp) with
  | .error e => .error e
  | .ok t =>
    match requireCols effRequired t with
    | .error e => .error e
    | .ok _ => .ok (t.rows.map fun w =>
        let v := fun c => cellVal (fun r => r.CD_CONTA) (effFiltered dfp) w.key c
        { DT_REFER := w.key.1
          DENOM_CIA := w.key.2
          margem_bruta := fmul100 (fdiv (v "3.03") (v "3.01"))
          margem_liquida := fmul100 (fdiv (v "3.11") (v "3.01"))
          margem_ebit := fmul100 (fdiv (v "3.05") (v "3.01")) })

/-- The account-code allow-list of `calculate_profitability`. -/
def profAccounts : List String := ["1", "2", "2.03", "3.05", "3.08", "3.11"]

/-- The filter step of `calculate_profitability`. -/
def profFiltered (dfp : List Row) : List Row :=
  dfp.filter fun r =>
    decide (r.CD_CONTA ∈ profAccounts ∧ r.ORDEM_EXERC = "ÚLTIMO")

/-- The columns the profitability assign lambdas index, in Python
evaluation order. -/
def profRequired : List String := ["3.05", "3.08", "2", "3.11", "2.03", "1"]

/-- One row of the profitability table. -/
structure ProfRow : Type where
  DT_REFER : String
  DENOM_CIA : String
  roic : FVal
  roe : FVal
  roa : FVal
  deriving DecidableEq

/-- `FinancialIndicators.calculate_profitability`: filter, pivot by
`CD_CONTA`, assign `roic/roe/roa`, and project. -/
def calculate_profitability (dfp : List Row) : Except String (List ProfRow) :=
  match pivotBy (fun r => r.CD_CONTA) (profFiltered dfp) with
  | .error e => .error e
  | .ok t =>
    match requireCols profRequired t with
    | .error e => .error e
    | .ok _ => .ok (t.rows.map fun w =>
        let v := fun c => cellVal (fun r => r.CD_CONTA) (profFiltered dfp) w.key c
        { DT_REFER := w.key.1
          DENOM_CIA := w.key.2
          roic := fmul100 (fdiv (fsub (v "3.05") (v "3.08")) (v "2"))
          roe := fmul100 (fdiv (v "3.11") (v "2.03"))
          roa := fmul100 (fdiv (v "3.11") (v "1")) })

/-! ## `CVMDataCollector` -/

/-- One row of the company registry feed (`cad_cia_aberta.csv`), the
columns `download_company_info` reads. -/
structure CompanyRec : Type where
  DENOM_SOCIAL : String
  SIT : String
  TP_MERC : String
  SETOR_ATIV : String
  CNPJ_CIA : String
  deriving DecidableEq

/-- The sectors `download_company_info` excludes. -/
def excludedSectors : List String :=
  ["Bancos", "Intermediação Financeira", "Seguradoras e Corretoras"]

/-- Ordering of registry rows by company name
(`sort_values('DENOM_SOCIAL')`). -/
def nameLE (a b : CompanyRec) : Prop := strLE a.DENOM_SOCIAL b.DENOM_SOCIAL

instance : DecidableRel nameLE := fun a b => by
  unfold nameLE; infer_instance

instance : IsTrans CompanyRec nameLE where
  trans _ _ _ hab hbc := strLE_trans hab hbc

instance : IsTotal CompanyRec nameLE where
  total a b := strLE_total a.DENOM_SOCIAL b.DENOM_SOCIAL

/-- `CVMDataCollector.download_company_info` (post-download part): keep
active, exchange-listed, non-excluded-sector companies and sort by
`DENOM_SOCIAL`. -/
def download_company_info (info : List CompanyRec) : List CompanyRec :=
  List.insertionSort nameLE (info.filter fun r =>
    decide (r.SIT = "ATIVO" ∧ r.TP_MERC = "BOLSA" ∧
      r.SETOR_ATIV ∉ excludedSectors))

/-- The company-name universe written to `companies.csv` and read back by
`FinancialProcessor.load_companies` (the first column of the filtered
registry). -/
def companiesOf (info : List CompanyRec) : List String :=
  (download_company_info info).map fun r => r.DENOM_SOCIAL

/-- The python `range(start, end + 1)` year list. -/
def yearsRange (s e : Nat) : List Nat := List.range' s (e + 1 - s)

/-- `CVMDataCollector.concatenate_statements` for one statement type:
`files` maps a year to the rows of its extracted CSV when the file
exists; missing years are skipped, and the dictionary entry is present
iff at least one year's file existed. -/
def concatType (files : Nat → Option (List Row)) (s e : Nat) :
    Option (List Row) :=
  if ((yearsRange s e).filterMap files).isEmpty then none
  else some ((yearsRange s e).filterMap files).flatten

/-! ## Pivot lemmas -/

theorem lookup_map_self (f : String → FVal) :
    ∀ (cs : List String) (c : String), c ∈ cs →
      (cs.map fun x => (x, f x)).lookup c = some (f c)
  | [], c, h => absurd h (List.not_mem_nil c)
  | x :: cs, c, h => by
    by_cases hx : c = x
    · subst hx
      simp [List.lookup]
    · have hc : c ∈ cs := by
        rcases List.mem_cons.mp h with h' | h'
        · exact absurd h' hx
        · exact h'
      have hbe : (c == x) = false := beq_eq_false_iff_ne.mpr hx
      simp only [List.map_cons, List.lookup, hbe]
      exact lookup_map_self f cs c hc

theorem mem_pivotKeys {df : List Row} {k : String × String} :
    k ∈ pivotKeys df ↔ ∃ r ∈ df, rowKey r = k := by
  unfold pivotKeys
  rw [(List.perm_insertionSort keyLE _).mem_iff, List.mem_dedup, List.mem_map]

theorem mem_pivotCols {colOf : Row → String} {df : List Row} {c : String} :
    c ∈ pivotCols colOf df ↔ ∃ r ∈ df, colOf r = c := by
  unfold pivotCols
  rw [(List.perm_insertionSort strLE _).mem_iff, List.mem_dedup, List.mem_map]

theorem pivotKeys_sorted (df : List Row) : List.Sorted keyLE (pivotKeys df) :=
  List.sorted_insertionSort keyLE _

theorem pivotKeys_nodup (df : List Row) : (pivotKeys df).Nodup :=
  ((List.perm_insertionSort keyLE _).nodup_iff).mpr (List.nodup_dedup _)

theorem pivotKeys_perm {df df' : List Row} (h : df.Perm df') :
    pivotKeys df = pivotKeys df' := by
  refine List.eq_of_perm_of_sorted ?_ (pivotKeys_sorted df) (pivotKeys_sorted df')
  exact ((List.perm_insertionSort _ _).trans ((h.map rowKey).dedup)).trans
    (List.perm_insertionSort _ _).symm

theorem pivotCols_perm {colOf : Row → String} {df df' : List Row}
    (h : df.Perm df') : pivotCols colOf df = pivotCols colOf df' := by
  refine List.eq_of_perm_of_sorted ?_ (List.sorted_insertionSort strLE _)
    (List.sorted_insertionSort strLE _)
  exact ((List.perm_insertionSort _ _).trans ((h.map colOf).dedup)).trans
    (List.perm_insertionSort _ _).symm

theorem cellVal_perm {colOf : Row → String} {df df' : List Row}
    (h : df.Perm df') (k : String × String) (c : String) :
    cellVal colOf df k c = cellVal colOf df' k c := by
  unfold cellVal
  have hp : (df.filter fun r => decide (rowKey r = k ∧ colOf r = c)).Perm
      (df'.filter fun r => decide (rowKey r = k ∧ colOf r = c)) :=
    h.filter _
  revert hp
  generalize df.filter _ = l
  generalize df'.filter _ = l'
  intro hp
  match l, l' with
  | [], l' => rw [hp.symm.eq_nil]
  | [a], l' => rw [List.perm_singleton.mp hp.symm]
  | a :: b :: t, [] => exact absurd hp.eq_nil (by simp)
  | a :: b :: t, [x] =>
    have hl := hp.length_eq
    simp at hl
  | a :: b :: t, x :: y :: t' => rfl

theorem mkWide_perm {colOf : Row → String} {df df' : List Row}
    (h : df.Perm df') : mkWide colOf df = mkWide colOf df' := by
  unfold mkWide
  rw [pivotKeys_perm h, pivotCols_perm h]
  simp only [cellVal_perm h]

theorem pivotBy_perm {colOf : Row → String} {df df' : List Row}
    (h : df.Perm df') : pivotBy colOf df = pivotBy colOf df' := by
  unfold pivotBy
  by_cases hn : (df.map fun r => (rowKey r, colOf r)).Nodup
  · have hn' : (df'.map fun r => (rowKey r, colOf r)).Nodup :=
      ((h.map _).nodup_iff).mp hn
    rw [if_pos hn, if_pos hn', mkWide_perm h]
  · have hn' : ¬ (df'.map fun r => (rowKey r, colOf r)).Nodup :=
      fun hh => hn (((h.map _).nodup_iff).mpr hh)
    rw [if_neg hn, if_neg hn']

theorem pivotBy_ok {colOf : Row → String} {df : List Row} {t : WideTable}
    (h : pivotBy colOf df = .ok t) :
    t = mkWide colOf df ∧ (df.map fun r => (rowKey r, colOf r)).Nodup := by
  unfold pivotBy at h
  by_cases hn : (df.map fun r => (rowKey r, colOf r)).Nodup
  · rw [if_pos hn] at h
    injection h with h
    exact ⟨h.symm, hn⟩
  · rw [if_neg hn] at h
    cases h

theorem pivotBy_error_of_dup {colOf : Row → String} {df : List Row}
    (h : ¬ (df.map fun r => (rowKey r, colOf r)).Nodup) :
    pivotBy colOf df =
      .error "ValueError: Index contains duplicate entries, cannot reshape" := by
  unfold pivotBy
  rw [if_neg h]

theorem pivot_rows_keys {colOf : Row → String} {df : List Row} {t : WideTable}
    (h : pivotBy colOf df = .ok t) :
    t.rows.map (fun w => w.key) = pivotKeys df := by
  rcases pivotBy_ok h with ⟨ht, _⟩
  subst ht
  unfold mkWide
  generalize pivotKeys df = ks
  induction ks with
  | nil => rfl
  | cons k ks ih => simpa using ih

theorem requireCols_ok {req : List String} {t : WideTable} :
    requireCols req t = .ok () ↔ ∀ c ∈ req, c ∈ t.cols := by
  unfold requireCols
  cases hf : req.find? (fun c => !(t.cols.contains c)) with
  | none =>
    simp only [eq_self_iff_true, true_iff]
    intro c hc
    have := List.find?_eq_none.mp hf c hc
    simpa using this
  | some c =>
    constructor
    · intro h
      cases h
    · intro hall
      have hc := List.find?_some hf
      have hcmem := List.mem_of_find?_eq_some hf
      exact absurd (hall c hcmem) (by simpa using hc)

/-! ## Concrete scenario inputs -/

/-- A final (`ÚLTIMO`) ACME filing row for period 2023-12-31. -/
def acmeRow (cd ds : String) (v : ℚ) : Row :=
  { DT_REFER := "2023-12-31", DENOM_CIA := "ACME S.A.", CD_CONTA := cd,
    DS_CONTA := ds, VL_CONTA := .num v, ORDEM_EXERC := "ÚLTIMO" }

/-- The spec's round-trip scenario input: exactly the two raw long rows. -/
def roundTripRows : List Row :=
  [acmeRow "1.01" "Ativo Circulante" 100,
   acmeRow "2.01" "Passivo Circulante" 50]

/-- The round-trip input completed with one row for each of the five other
account columns the liquidity assign lambdas index. -/
def roundTripFull : List Row :=
  roundTripRows ++
  [acmeRow "1.01.01" "Caixa e Equivalentes de Caixa" 10,
   acmeRow "1.01.04" "Estoques" 5,
   acmeRow "1.01.07" "Despesas Antecipadas" 1,
   acmeRow "1.02" "Ativo Não Circulante" 20,
   acmeRow "2.02" "Passivo Não Circulante" 30]

/-- A complete liquidity input with parametric Ativo Circulante and
Passivo Circulante values. -/
def liqTemplate (ac pc : ℚ) : List Row :=
  [acmeRow "1.01" "Ativo Circulante" ac,
   acmeRow "2.01" "Passivo Circulante" pc,
   acmeRow "1.01.01" "Caixa e Equivalentes de Caixa" 10,
   acmeRow "1.01.04" "Estoques" 5,
   acmeRow "1.01.07" "Despesas Antecipadas" 1,
   acmeRow "1.02" "Ativo Não Circulante" 20,
   acmeRow "2.02" "Passivo Não Circulante" 30]

/-! ## C1 -/

/-- C1, counterexample: on exactly the two round-trip rows, with ACME in
the universe and both rows final, `calculate_liquidity` does not produce
a `liquidez_corrente` row at all — the first assign lambda indexes the
absent column `Caixa e Equivalentes de Caixa` and the computation raises
`KeyError`. -/
theorem c1_counterexample :
    calculate_liquidity (load_data roundTripRows [] ["ACME S.A."]) =
      .error "KeyError: Caixa e Equivalentes de Caixa" := by decide

/-- C1, amended: when the input additionally carries one row for each of
the five other account columns the liquidity lambdas index, the liquidity
computation over the round-trip rows produces the single row
`(2023-12-31, ACME S.A.)` with `liquidez_corrente = 100 / 50 = 2.0`. -/
theorem c1_amended :
    (calculate_liquidity (load_data roundTripFull [] ["ACME S.A."])).map
        (List.map fun r => (r.DT_REFER, r.DENOM_CIA, r.liquidez_corrente)) =
      .ok [("2023-12-31", "ACME S.A.", FVal.num 2)] := by
  have h : (calculate_liquidity (load_data roundTripFull [] ["ACME S.A."])).map
      (List.map fun r => (r.DT_REFER, r.DENOM_CIA, r.liquidez_corrente)) =
      .ok [("2023-12-31", "ACME S.A.", FVal.num ((100 : ℚ) / 50))] := by rfl
  rw [h]
  norm_num

/-! ## C2 -/

/-- C2, counterexample: a complete liquidity input row with
`Passivo Circulante = 0` and `Ativo Circulante = 100` yields
`liquidez_corrente = +∞`, not NaN. -/
theorem c2_counterexample :
    (calculate_liquidity (load_data (liqTemplate 100 0) [] ["ACME S.A."])).map
        (List.map fun r => r.liquidez_corrente) =
      .ok [FVal.inf false] := by decide

/-- C2, amended: with a zero denominator the ratio is NaN only when the
numerator is zero (`0/0`); a nonzero finite numerator gives signed
infinity.  In both cases the computation returns a value — no exception,
no string, no zero substitution. -/
theorem c2_amended (ac : ℚ) (hac : ac ≠ 0) :
    (calculate_liquidity (load_data (liqTemplate ac 0) [] ["ACME S.A."])).map
        (List.map fun r => r.liquidez_corrente) =
      .ok [FVal.inf (decide (ac < 0))] ∧
    (calculate_liquidity (load_data (liqTemplate 0 0) [] ["ACME S.A."])).map
        (List.map fun r => r.liquidez_corrente) =
      .ok [FVal.nan] := by
  constructor
  · have h : (calculate_liquidity (load_data (liqTemplate ac 0) [] ["ACME S.A."])).map
        (List.map fun r => r.liquidez_corrente) =
        .ok [fdiv (FVal.num ac) (FVal.num 0)] := by rfl
    rw [h]
    simp [fdiv, hac]
  · decide

/-- C2, witness: the amended theorem applied at the concrete numerator
100. -/
theorem c2_witness :
    (100 : ℚ) ≠ 0 ∧
    ((calculate_liquidity (load_data (liqTemplate 100 0) [] ["ACME S.A."])).map
        (List.map fun r => r.liquidez_corrente) =
      .ok [FVal.inf (decide ((100 : ℚ) < 0))] ∧
    (calculate_liquidity (load_data (liqTemplate 0 0) [] ["ACME S.A."])).map
        (List.map fun r => r.liquidez_corrente) =
      .ok [FVal.nan]) :=
  ⟨by norm_num, c2_amended 100 (by norm_num)⟩

/-! ## C3 -/

/-- A complete liquidity input except that no row anywhere carries the
account `Estoques` (code 1.01.04). -/
def noEstoquesRows : List Row :=
  [acmeRow "1.01" "Ativo Circulante" 100,
   acmeRow "2.01" "Passivo Circulante" 50,
   acmeRow "1.01.01" "Caixa e Equivalentes de Caixa" 10,
   acmeRow "1.01.07" "Despesas Antecipadas" 1,
   acmeRow "1.02" "Ativo Não Circulante" 20,
   acmeRow "2.02" "Passivo Não Circulante" 30]

/-- C3, counterexample: when the account column `Estoques` is entirely
absent after the pivot, the liquidity computation does not complete with
NaN values — it fails with the missing-column `KeyError`. -/
theorem c3_counterexample :
    calculate_liquidity (load_data noEstoquesRows [] ["ACME S.A."]) =
      .error "KeyError: Estoques" := by decide

/-- C3, amended: an expected account column that is entirely absent after
the pivot aborts the ratio computation with a missing-column error
(`KeyError`) instead of yielding NaN for the affected rows; equivalently,
whenever a ratio table is successfully produced, every column its assign
lambdas index appears in some filtered input row.  (NaN arises only for a
row whose cell is missing while the column exists elsewhere.) -/
theorem c3_amended :
    (∀ dfp t, calculate_liquidity dfp = .ok t →
      ∀ c ∈ liqRequired, ∃ r ∈ liqFiltered dfp, r.DS_CONTA = c) ∧
    (∀ dfp t, calculate_debt dfp = .ok t →
      ∀ c ∈ debtRequired, ∃ r ∈ debtFiltered dfp, r.CD_CONTA = c) ∧
    (∀ bpa bpp companies t, process_balance_sheet bpa bpp companies = .ok t →
      ∀ c ∈ ["Passivo Total", "Patrimônio Líquido Consolidado"],
        ∃ r ∈ filteredBS (bpa ++ bpp) companies, r.DS_CONTA = c) := by
  refine ⟨?_, ?_, ?_⟩
  · intro dfp t h c hc
    unfold calculate_liquidity at h
    cases hp : pivotBy (fun r => r.DS_CONTA) (liqFiltered dfp) with
    | error e => simp [hp] at h
    | ok t' =>
      cases hr : requireCols liqRequired t' with
      | error e => simp [hp, hr] at h
      | ok u =>
        have hcols := requireCols_ok.mp (by rw [hr])
        have hc' : c ∈ t'.cols := hcols c hc
        rcases pivotBy_ok hp with ⟨ht', _⟩
        subst ht'
        exact mem_pivotCols.mp hc'
  · intro dfp t h c hc
    unfold calculate_debt at h
    cases hp : pivotBy (fun r => r.CD_CONTA) (debtFiltered dfp) with
    | error e => simp [hp] at h
    | ok t' =>
      cases hr : requireCols debtRequired t' with
      | error e => simp [hp, hr] at h
      | ok u =>
        have hcols := requireCols_ok.mp (by rw [hr])
        have hc' : c ∈ t'.cols := hcols c hc
        rcases pivotBy_ok hp with ⟨ht', _⟩
        subst ht'
        exact mem_pivotCols.mp hc'
  · intro bpa bpp companies t h c hc
    unfold process_balance_sheet at h
    cases hp : pivotBy (fun r => r.DS_CONTA) (filteredBS (bpa ++ bpp) companies) with
    | error e => simp [hp] at h
    | ok t' =>
      cases hr : requireCols ["Passivo Total", "Patrimônio Líquido Consolidado"] t' with
      | error e => simp [hp, hr] at h
      | ok u =>
        have hcols := requireCols_ok.mp (by rw [hr])
        have hc' : c ∈ t'.cols := hcols c hc
        rcases pivotBy_ok hp with ⟨ht', _⟩
        subst ht'
        exact mem_pivotCols.mp hc'

/-- C3, witness: the amended theorem applied to the successful complete
liquidity input certifies that `Estoques` occurs in its filtered rows. -/
theorem c3_witness :
    ∃ r ∈ liqFiltered (load_data roundTripFull [] ["ACME S.A."]),
      r.DS_CONTA = "Estoques" := by
  have hok : (match calculate_liquidity (load_data roundTripFull [] ["ACME S.A."]) with
      | .ok _ => true
      | .error _ => false) = true := by decide
  cases hE : calculate_liquidity (load_data roundTripFull [] ["ACME S.A."]) with
  | error e => rw [hE] at hok; cases hok
  | ok t =>
    exact c3_amended.1 (load_data roundTripFull [] ["ACME S.A."]) t hE
      "Estoques" (by decide)

/-! ## C4 -/

/-- Two distinct final rows with the same (period, company, account)
key, both passing every filter of the balance-sheet reshaper. -/
def dupRows : List Row :=
  [acmeRow "1" "Ativo Total" 100, acmeRow "1" "Ativo Total" 90]

/-- C4: if the filtered long input carries two distinct rows with the
same (`DT_REFER`, `DENOM_CIA`, `DS_CONTA`) key (the mapped key list is
not `Nodup`), the balance-sheet reshape fails fast with pandas' duplicate
`ValueError` rather than picking one value; and every successfully
produced wide table indexes each (period, company) pair exactly once. -/
theorem c4 (bpa bpp : List Row) (companies : List String) :
    (¬ ((filteredBS (bpa ++ bpp) companies).map
          (fun r => (rowKey r, r.DS_CONTA))).Nodup →
      process_balance_sheet bpa bpp companies =
        .error "ValueError: Index contains duplicate entries, cannot reshape") ∧
    (∀ t, process_balance_sheet bpa bpp companies = .ok t →
      (t.map fun r => (r.DT_REFER, r.DENOM_CIA)).Nodup) := by
  constructor
  · intro hdup
    unfold process_balance_sheet
    rw [pivotBy_error_of_dup hdup]
  · intro t h
    unfold process_balance_sheet at h
    cases hp : pivotBy (fun r => r.DS_CONTA) (filteredBS (bpa ++ bpp) companies) with
    | error e => simp [hp] at h
    | ok t' =>
      cases hr : requireCols ["Passivo Total", "Patrimônio Líquido Consolidado"] t' with
      | error e => simp [hp, hr] at h
      | ok u =>
        simp only [hp, hr] at h
        injection h with h
        subst h
        rw [List.map_map]
        show ((t'.rows.map fun w => w.key)).Nodup
        rw [pivot_rows_keys hp]
        exact pivotKeys_nodup _

/-- C4, witness: the duplicate-input half of the theorem applied to a
concrete input with two final `Ativo Total` rows for the same
(period, company). -/
theorem c4_witness :
    process_balance_sheet dupRows [] ["ACME S.A."] =
      .error "ValueError: Index contains duplicate entries, cannot reshape" :=
  (c4 dupRows [] ["ACME S.A."]).1 (by decide)

/-! ## C5 -/

/-- C5: the universe filter returns exactly the registry rows with
`SIT = 'ATIVO'`, `TP_MERC = 'BOLSA'` and a sector outside the excluded
set (as a permutation, i.e. the same rows with the same multiplicities),
sorted ascending by company name. -/
theorem c5 (info : List CompanyRec) :
    (download_company_info info).Perm (info.filter fun r =>
        decide (r.SIT = "ATIVO" ∧ r.TP_MERC = "BOLSA" ∧
          r.SETOR_ATIV ∉ excludedSectors)) ∧
    List.Sorted nameLE (download_company_info info) ∧
    (∀ r, r ∈ download_company_info info ↔
      r ∈ info ∧ r.SIT = "ATIVO" ∧ r.TP_MERC = "BOLSA" ∧
        r.SETOR_ATIV ∉ excludedSectors) := by
  refine ⟨List.perm_insertionSort _ _, List.sorted_insertionSort _ _, ?_⟩
  intro r
  unfold download_company_info
  rw [(List.perm_insertionSort nameLE _).mem_iff, List.mem_filter]
  simp

/-! ## C6 -/

/-- C6: when every year past `cutoff` has no file, requesting the range
`[s, e]` (with `s ≤ cutoff ≤ e`) returns the same concatenation as
requesting `[s, cutoff]` — the missing years are skipped without error —
and a row is in the result exactly when it is a row of some existing
year's file within the requested range. -/
theorem c6 (files : Nat → Option (List Row)) (s e cutoff : Nat)
    (h1 : s ≤ cutoff) (h2 : cutoff ≤ e)
    (hmiss : ∀ y, cutoff < y → files y = none) :
    concatType files s e = concatType files s cutoff ∧
    (∀ r, r ∈ (concatType files s e).getD [] ↔
      ∃ y ∈ yearsRange s e, ∃ rs, files y = some rs ∧ r ∈ rs) := by
  have hyears : yearsRange s e =
      yearsRange s cutoff ++ List.range' (cutoff + 1) (e - cutoff) := by
    unfold yearsRange
    have hm : e + 1 - s = (e - cutoff) + (cutoff + 1 - s) := by omega
    have hs : s + (cutoff + 1 - s) = cutoff + 1 := by omega
    rw [hm, ← List.range'_append_1, hs]
  have hnil : (List.range' (cutoff + 1) (e - cutoff)).filterMap files = [] := by
    rw [List.filterMap_eq_nil_iff]
    intro y hy
    apply hmiss
    rcases List.mem_range'.mp hy with ⟨i, hi, hy'⟩
    omega
  have hfm : (yearsRange s e).filterMap files =
      (yearsRange s cutoff).filterMap files := by
    rw [hyears, List.filterMap_append, hnil, List.append_nil]
  constructor
  · unfold concatType
    rw [hfm]
  · intro r
    unfold concatType
    by_cases hempty : ((yearsRange s e).filterMap files).isEmpty
    · rw [if_pos hempty]
      simp only [Option.getD_none]
      constructor
      · intro h
        exact absurd h (List.not_mem_nil r)
      · rintro ⟨y, hy, rs, hrs, hr⟩
        have hmem : rs ∈ (yearsRange s e).filterMap files :=
          List.mem_filterMap.mpr ⟨y, hy, hrs⟩
        rw [List.isEmpty_iff] at hempty
        rw [hempty] at hmem
        exact absurd hmem (List.not_mem_nil rs)
    · rw [if_neg hempty]
      simp only [Option.getD_some]
      rw [List.mem_flatten]
      constructor
      · rintro ⟨l, hl, hr⟩
        rcases List.mem_filterMap.mp hl with ⟨y, hy, hfy⟩
        exact ⟨y, hy, l, hfy, hr⟩
      · rintro ⟨y, hy, rs, hrs, hr⟩
        exact ⟨rs, List.mem_filterMap.mpr ⟨y, hy, hrs⟩, hr⟩

/-- A file layout where only the year 2016 exists on disk. -/
def demoFiles : Nat → Option (List Row) :=
  fun y => if y = 2016 then some roundTripRows else none

/-- C6, witness: requesting 2016–2025 over a layout with no files after
2020 equals requesting 2016–2020. -/
theorem c6_witness :
    concatType demoFiles 2016 2025 = concatType demoFiles 2016 2020 :=
  (c6 demoFiles 2016 2025 2020 (by norm_num) (by norm_num)
    (fun y hy => if_neg (by omega))).1

/-! ## C7 -/

/-- C7: every row of a successfully processed balance sheet has
`passivo` equal to the row's "Passivo Total" cell minus its
"Patrimônio Líquido Consolidado" cell (float subtraction, so NaN when
either cell is missing). -/
theorem c7 (bpa bpp : List Row) (companies : List String) (t : List BSRow)
    (h : process_balance_sheet bpa bpp companies = .ok t) :
    ∀ r ∈ t, r.passivo =
      fsub ((r.cells.lookup "Passivo Total").getD .nan)
        ((r.cells.lookup "Patrimônio Líquido Consolidado").getD .nan) := by
  intro r hr
  unfold process_balance_sheet at h
  cases hp : pivotBy (fun x => x.DS_CONTA) (filteredBS (bpa ++ bpp) companies) with
  | error e => simp [hp] at h
  | ok t' =>
    cases hq : requireCols ["Passivo Total", "Patrimônio Líquido Consolidado"] t' with
    | error e => simp [hp, hq] at h
    | ok u =>
      simp only [hp, hq] at h
      injection h with h
      subst h
      rcases List.mem_map.mp hr with ⟨w, hw, rfl⟩
      rfl

/-- A concrete balance-sheet input carrying the two derived-column
source accounts. -/
def bsDemoRows : List Row :=
  [acmeRow "2" "Passivo Total" 80,
   acmeRow "2.03" "Patrimônio Líquido Consolidado" 30]

/-- The processed row `process_balance_sheet` produces from
`bsDemoRows`. -/
def bsDemoRow : BSRow :=
  { DT_REFER := "2023-12-31"
    DENOM_CIA := "ACME S.A."
    cells := [("Passivo Total", FVal.num 80),
              ("Patrimônio Líquido Consolidado", FVal.num 30)]
    passivo := fsub (FVal.num 80) (FVal.num 30) }

/-- C7, witness: the theorem applied to a concrete successful run and
its produced row. -/
theorem c7_witness :
    bsDemoRow.passivo =
      fsub ((bsDemoRow.cells.lookup "Passivo Total").getD .nan)
        ((bsDemoRow.cells.lookup "Patrimônio Líquido Consolidado").getD .nan) :=
  c7 bsDemoRows [] ["ACME S.A."] [bsDemoRow] (by rfl) bsDemoRow
    (List.mem_singleton.mpr rfl)

/-! ## C8 -/

/-- C8: every row of a successful profitability run satisfies
`roic = (cell 3.05 − cell 3.08) / cell 2 × 100`,
`roe = cell 3.11 / cell 2.03 × 100` and
`roa = cell 3.11 / cell 1 × 100`, the cells being the code-keyed pivot of
the filtered input at that row's (period, company) key, with the percent
scaling applied after the division. -/
theorem c8 (dfp : List Row) (t : List ProfRow)
    (h : calculate_profitability dfp = .ok t) :
    ∀ r ∈ t,
      r.roic = fmul100 (fdiv
        (fsub (cellVal (fun x => x.CD_CONTA) (profFiltered dfp)
            (r.DT_REFER, r.DENOM_CIA) "3.05")
          (cellVal (fun x => x.CD_CONTA) (profFiltered dfp)
            (r.DT_REFER, r.DENOM_CIA) "3.08"))
        (cellVal (fun x => x.CD_CONTA) (profFiltered dfp)
          (r.DT_REFER, r.DENOM_CIA) "2")) ∧
      r.roe = fmul100 (fdiv
        (cellVal (fun x => x.CD_CONTA) (profFiltered dfp)
          (r.DT_REFER, r.DENOM_CIA) "3.11")
        (cellVal (fun x => x.CD_CONTA) (profFiltered dfp)
          (r.DT_REFER, r.DENOM_CIA) "2.03")) ∧
      r.roa = fmul100 (fdiv
        (cellVal (fun x => x.CD_CONTA) (profFiltered dfp)
          (r.DT_REFER, r.DENOM_CIA) "3.11")
        (cellVal (fun x => x.CD_CONTA) (profFiltered dfp)
          (r.DT_REFER, r.DENOM_CIA) "1")) := by
  intro r hr
  unfold calculate_profitability at h
  cases hp : pivotBy (fun x => x.CD_CONTA) (profFiltered dfp) with
  | error e => simp [hp] at h
  | ok t' =>
    cases hq : requireCols profRequired t' with
    | error e => simp [hp, hq] at h
    | ok u =>
      simp only [hp, hq] at h
      injection h with h
      subst h
      rcases List.mem_map.mp hr with ⟨w, hw, rfl⟩
      exact ⟨rfl, rfl, rfl⟩

/-- A concrete profitability input with one final row per account code
the profitability lambdas index. -/
def profDemoRows : List Row :=
  [acmeRow "1" "Ativo Total" 200,
   acmeRow "2" "Passivo Total Consolidado" 200,
   acmeRow "2.03" "Patrimônio Líquido Consolidado" 80,
   acmeRow "3.05" "Resultado Antes do Resultado Financeiro e dos Tributos" 40,
   acmeRow "3.08" "Imposto de Renda e Contribuição Social sobre o Lucro" 10,
   acmeRow "3.11" "Lucro/Prejuízo Consolidado do Período" 25]

/-- The profitability row produced from `profDemoRows`. -/
def profDemoRow : ProfRow :=
  { DT_REFER := "2023-12-31"
    DENOM_CIA := "ACME S.A."
    roic := fmul100 (fdiv (fsub (FVal.num 40) (FVal.num 10)) (FVal.num 200))
    roe := fmul100 (fdiv (FVal.num 25) (FVal.num 80))
    roa := fmul100 (fdiv (FVal.num 25) (FVal.num 200)) }

/-- C8, witness: the theorem applied to a concrete successful run and
its produced row. -/
theorem c8_witness :
    profDemoRow.roic = fmul100 (fdiv
        (fsub (cellVal (fun x => x.CD_CONTA) (profFiltered profDemoRows)
            (profDemoRow.DT_REFER, profDemoRow.DENOM_CIA) "3.05")
          (cellVal (fun x => x.CD_CONTA) (profFiltered profDemoRows)
            (profDemoRow.DT_REFER, profDemoRow.DENOM_CIA) "3.08"))
        (cellVal (fun x => x.CD_CONTA) (profFiltered profDemoRows)
          (profDemoRow.DT_REFER, profDemoRow.DENOM_CIA) "2")) ∧
      profDemoRow.roe = fmul100 (fdiv
        (cellVal (fun x => x.CD_CONTA) (profFiltered profDemoRows)
          (profDemoRow.DT_REFER, profDemoRow.DENOM_CIA) "3.11")
        (cellVal (fun x => x.CD_CONTA) (profFiltered profDemoRows)
          (profDemoRow.DT_REFER, profDemoRow.DENOM_CIA) "2.03")) ∧
      profDemoRow.roa = fmul100 (fdiv
        (cellVal (fun x => x.CD_CONTA) (profFiltered profDemoRows)
          (profDemoRow.DT_REFER, profDemoRow.DENOM_CIA) "3.11")
        (cellVal (fun x => x.CD_CONTA) (profFiltered profDemoRows)
          (profDemoRow.DT_REFER, profDemoRow.DENOM_CIA) "1")) :=
  c8 profDemoRows [profDemoRow] (by rfl) profDemoRow
    (List.mem_singleton.mpr rfl)

/-! ## Company-membership lemmas -/

theorem key_of_pivot_row {colOf : Row → String} {df : List Row}
    {t : WideTable} (h : pivotBy colOf df = .ok t) {w : WideRow}
    (hw : w ∈ t.rows) : ∃ r ∈ df, rowKey r = w.key := by
  rcases pivotBy_ok h with ⟨ht, _⟩
  subst ht
  unfold mkWide at hw
  rcases List.mem_map.mp hw with ⟨k, hk, rfl⟩
  exact mem_pivotKeys.mp hk

theorem mem_download_iff {info : List CompanyRec} {r : CompanyRec} :
    r ∈ download_company_info info ↔
      r ∈ info ∧ r.SIT = "ATIVO" ∧ r.TP_MERC = "BOLSA" ∧
        r.SETOR_ATIV ∉ excludedSectors := by
  unfold download_company_info
  rw [(List.perm_insertionSort nameLE _).mem_iff, List.mem_filter]
  simp

theorem mem_load_data {bp dre : List Row} {cos : List String} {r : Row}
    (h : r ∈ load_data bp dre cos) : r.DENOM_CIA ∈ cos := by
  unfold load_data at h
  exact of_decide_eq_true (List.mem_filter.mp h).2

theorem bs_company_mem {bpa bpp : List Row} {cos : List String}
    {t : List BSRow} (h : process_balance_sheet bpa bpp cos = .ok t) :
    ∀ r ∈ t, r.DENOM_CIA ∈ cos := by
  intro r hr
  unfold process_balance_sheet at h
  cases hp : pivotBy (fun x => x.DS_CONTA) (filteredBS (bpa ++ bpp) cos) with
  | error e => simp [hp] at h
  | ok t' =>
    cases hq : requireCols ["Passivo Total", "Patrimônio Líquido Consolidado"] t' with
    | error e => simp [hp, hq] at h
    | ok u =>
      simp only [hp, hq] at h
      injection h with h
      subst h
      rcases List.mem_map.mp hr with ⟨w, hw, rfl⟩
      rcases key_of_pivot_row hp hw with ⟨src, hsrc, hk⟩
      have h2 : src.DENOM_CIA = w.key.2 := congrArg Prod.snd hk
      have hpred := of_decide_eq_true (List.mem_filter.mp hsrc).2
      exact h2 ▸ hpred.2.1

theorem income_company_mem {dre : List Row} {cos : List String}
    {t : WideTable} (h : process_income_statement dre cos = .ok t) :
    ∀ w ∈ t.rows, w.key.2 ∈ cos := by
  intro w hw
  unfold process_income_statement at h
  rcases key_of_pivot_row h hw with ⟨src, hsrc, hk⟩
  have hpred := of_decide_eq_true (List.mem_filter.mp hsrc).2
  exact (congrArg Prod.snd hk) ▸ hpred.2.1

theorem liq_company_mem {bp dre : List Row} {cos : List String}
    {t : List LiqRow}
    (h : calculate_liquidity (load_data bp dre cos) = .ok t) :
    ∀ r ∈ t, r.DENOM_CIA ∈ cos := by
  intro r hr
  unfold calculate_liquidity at h
  cases hp : pivotBy (fun x => x.DS_CONTA) (liqFiltered (load_data bp dre cos)) with
  | error e => simp [hp] at h
  | ok t' =>
    cases hq : requireCols liqRequired t' with
    | error e => simp [hp, hq] at h
    | ok u =>
      simp only [hp, hq] at h
      injection h with h
      subst h
      rcases List.mem_map.mp hr with ⟨w, hw, rfl⟩
      rcases key_of_pivot_row hp hw with ⟨src, hsrc, hk⟩
      have h2 : src.DENOM_CIA = w.key.2 := congrArg Prod.snd hk
      have hsrc' : src ∈ load_data bp dre cos := (List.mem_filter.mp hsrc).1
      exact h2 ▸ mem_load_data hsrc'

theorem debt_company_mem {bp dre : List Row} {cos : List String}
    {t : List DebtRow}
    (h : calculate_debt (load_data bp dre cos) = .ok t) :
    ∀ r ∈ t, r.DENOM_CIA ∈ cos := by
  intro r hr
  unfold calculate_debt at h
  cases hp : pivotBy (fun x => x.CD_CONTA) (debtFiltered (load_data bp dre cos)) with
  | error e => simp [hp] at h
  | ok t' =>
    cases hq : requireCols debtRequired t' with
    | error e => simp [hp, hq] at h
    | ok u =>
      simp only [hp, hq] at h
      injection h with h
      subst h
      rcases List.mem_map.mp hr with ⟨w, hw, rfl⟩
      rcases key_of_pivot_row hp hw with ⟨src, hsrc, hk⟩
      have h2 : src.DENOM_CIA = w.key.2 := congrArg Prod.snd hk
      have hsrc' : src ∈ load_data bp dre cos := (List.mem_filter.mp hsrc).1
      exact h2 ▸ mem_load_data hsrc'

theorem eff_company_mem {bp dre : List Row} {cos : List String}
    {t : List EffRow}
    (h : calculate_efficiency (load_data bp dre cos) = .ok t) :
    ∀ r ∈ t, r.DENOM_CIA ∈ cos := by
  intro r hr
  unfold calculate_efficiency at h
  cases hp : pivotBy (fun x => x.CD_CONTA) (effFiltered (load_data bp dre cos)) with
  | error e => simp [hp] at h
  | ok t' =>
    cases hq : requireCols effRequired t' with
    | error e => simp [hp, hq] at h
    | ok u =>
      simp only [hp, hq] at h
      injection h with h
      subst h
      rcases List.mem_map.mp hr with ⟨w, hw, rfl⟩
      rcases key_of_pivot_row hp hw with ⟨src, hsrc, hk⟩
      have h2 : src.DENOM_CIA = w.key.2 := congrArg Prod.snd hk
      have hsrc' : src ∈ load_data bp dre cos := (List.mem_filter.mp hsrc).1
      exact h2 ▸ mem_load_data hsrc'

theorem prof_company_mem {bp dre : List Row} {cos : List String}
    {t : List ProfRow}
    (h : calculate_profitability (load_data bp dre cos) = .ok t) :
    ∀ r ∈ t, r.DENOM_CIA ∈ cos := by
  intro r hr
  unfold calculate_profitability at h
  cases hp : pivotBy (fun x => x.CD_CONTA) (profFiltered (load_data bp dre cos)) with
  | error e => simp [hp] at h
  | ok t' =>
    cases hq : requireCols profRequired t' with
    | error e => simp [hp, hq] at h
    | ok u =>
      simp only [hp, hq] at h
      injection h with h
      subst h
      rcases List.mem_map.mp hr with ⟨w, hw, rfl⟩
      rcases key_of_pivot_row hp hw with ⟨src, hsrc, hk⟩
      have h2 : src.DENOM_CIA = w.key.2 := congrArg Prod.snd hk
      have hsrc' : src ∈ load_data bp dre cos := (List.mem_filter.mp hsrc).1
      exact h2 ▸ mem_load_data hsrc'

/-! ## C9 -/

/-- C9: when every registry row of a company fails the universe filter
(excluded sector such as "Bancos", or non-active status, or non-exchange
venue), the company's name is not in the loaded universe and appears in
no row of any reshaped statement table nor of any ratio table, even if
its filing rows are present in the raw input — every output row's
company is a member of the loaded universe. -/
theorem c9 (info : List CompanyRec) (bpa bpp dre bp2 dre2 : List Row)
    (name : String)
    (hexcl : ∀ rec ∈ info, rec.DENOM_SOCIAL = name →
      ¬ (rec.SIT = "ATIVO" ∧ rec.TP_MERC = "BOLSA" ∧
        rec.SETOR_ATIV ∉ excludedSectors)) :
    name ∉ companiesOf info ∧
    (∀ t, process_balance_sheet bpa bpp (companiesOf info) = .ok t →
      ∀ r ∈ t, r.DENOM_CIA ≠ name) ∧
    (∀ t, process_income_statement dre (companiesOf info) = .ok t →
      ∀ w ∈ t.rows, w.key.2 ≠ name) ∧
    (∀ t, calculate_liquidity (load_data bp2 dre2 (companiesOf info)) = .ok t →
      ∀ r ∈ t, r.DENOM_CIA ≠ name) ∧
    (∀ t, calculate_debt (load_data bp2 dre2 (companiesOf info)) = .ok t →
      ∀ r ∈ t, r.DENOM_CIA ≠ name) ∧
    (∀ t, calculate_efficiency (load_data bp2 dre2 (companiesOf info)) = .ok t →
      ∀ r ∈ t, r.DENOM_CIA ≠ name) ∧
    (∀ t, calculate_profitability (load_data bp2 dre2 (companiesOf info)) = .ok t →
      ∀ r ∈ t, r.DENOM_CIA ≠ name) := by
  have hnot : name ∉ companiesOf info := by
    intro hmem
    unfold companiesOf at hmem
    rcases List.mem_map.mp hmem with ⟨rec, hrec, hname⟩
    have hfacts := mem_download_iff.mp hrec
    exact hexcl rec hfacts.1 hname ⟨hfacts.2.1, hfacts.2.2.1, hfacts.2.2.2⟩
  refine ⟨hnot, ?_, ?_, ?_, ?_, ?_, ?_⟩
  · intro t h r hr heq
    exact hnot (heq ▸ bs_company_mem h r hr)
  · intro t h w hw heq
    exact hnot (heq ▸ income_company_mem h w hw)
  · intro t h r hr heq
    exact hnot (heq ▸ liq_company_mem h r hr)
  · intro t h r hr heq
    exact hnot (heq ▸ debt_company_mem h r hr)
  · intro t h r hr heq
    exact hnot (heq ▸ eff_company_mem h r hr)
  · intro t h r hr heq
    exact hnot (heq ▸ prof_company_mem h r hr)

/-- A registry whose single row for "Banco X" is in the excluded sector
"Bancos". -/
def bancoInfo : List CompanyRec :=
  [{ DENOM_SOCIAL := "Banco X", SIT := "ATIVO", TP_MERC := "BOLSA",
     SETOR_ATIV := "Bancos", CNPJ_CIA := "00" }]

/-- C9, witness: "Banco X" (sector "Bancos") is excluded from the
universe built from `bancoInfo`. -/
theorem c9_witness : "Banco X" ∉ companiesOf bancoInfo :=
  (c9 bancoInfo [] [] [] [] [] "Banco X" (by decide)).1

/-! ## C10 -/

/-- C10: the statement reshapers are invariant under permutation of
their raw input rows, and a successful reshape lists its rows in
ascending lexicographic (`DT_REFER`, `DENOM_CIA`) order. -/
theorem c10 (bpa bpp bpa2 bpp2 dre dre2 : List Row) (companies : List String)
    (hbs : (bpa ++ bpp).Perm (bpa2 ++ bpp2)) (hdre : dre.Perm dre2) :
    process_balance_sheet bpa bpp companies =
      process_balance_sheet bpa2 bpp2 companies ∧
    process_income_statement dre companies =
      process_income_statement dre2 companies ∧
    (∀ t, process_balance_sheet bpa bpp companies = .ok t →
      List.Sorted keyLE (t.map fun r => (r.DT_REFER, r.DENOM_CIA))) ∧
    (∀ t, process_income_statement dre companies = .ok t →
      List.Sorted keyLE (t.rows.map fun w => w.key)) := by
  have hfbs : (filteredBS (bpa ++ bpp) companies).Perm
      (filteredBS (bpa2 ++ bpp2) companies) := hbs.filter _
  have hfdre : (filteredDRE dre companies).Perm
      (filteredDRE dre2 companies) := hdre.filter _
  refine ⟨?_, ?_, ?_, ?_⟩
  · unfold process_balance_sheet
    rw [pivotBy_perm hfbs]
  · unfold process_income_statement
    exact pivotBy_perm hfdre
  · intro t h
    unfold process_balance_sheet at h
    cases hp : pivotBy (fun x => x.DS_CONTA) (filteredBS (bpa ++ bpp) companies) with
    | error e => simp [hp] at h
    | ok t' =>
      cases hq : requireCols ["Passivo Total", "Patrimônio Líquido Consolidado"] t' with
      | error e => simp [hp, hq] at h
      | ok u =>
        simp only [hp, hq] at h
        injection h with h
        subst h
        rw [List.map_map]
        show List.Sorted keyLE (t'.rows.map fun w => w.key)
        rw [pivot_rows_keys hp]
        exact pivotKeys_sorted _
  · intro t h
    unfold process_income_statement at h
    rw [pivot_rows_keys h]
    exact pivotKeys_sorted _

/-- The two balance-sheet demo rows in the opposite order. -/
def bsDemoRowsRev : List Row :=
  [acmeRow "2.03" "Patrimônio Líquido Consolidado" 30,
   acmeRow "2" "Passivo Total" 80]

/-- C10, witness: the reshape of the demo input equals the reshape of
its reversal. -/
theorem c10_witness :
    process_balance_sheet bsDemoRows [] ["ACME S.A."] =
      process_balance_sheet bsDemoRowsRev [] ["ACME S.A."] :=
  (c10 bsDemoRows [] bsDemoRowsRev [] [] [] ["ACME S.A."] (by decide)
    (List.Perm.refl [])).1
